import Mathlib

/-!
Verification of the HardenerAI hardening pipeline core.

This file gives a shallow embedding, in Lean 4, of the deduplication,
risk-scoring, validation, apply and snapshot/rollback logic of the
repository (src/src/deduplication/grouper.ts, src/src/scoring/riskScorer.ts,
src/src/orchestrator.ts, src/src/safety/rollbackManager.ts and the
validator module), and proves or refutes the frozen specification claims
about that logic.

Modelling conventions:
- JavaScript numbers are modelled by exact rationals; every weight in the
  scorer is a small decimal fraction, and on every concrete input appearing
  below the double-precision computation of the source agrees exactly with
  the rational one.
- JavaScript strings are modelled by Lean strings; the case-folding,
  trimming and substring primitives used by the source are re-implemented
  by structural recursion over the character list so that all of them
  evaluate inside the kernel.  All inputs in this development are ASCII,
  where these primitives agree with their Unicode JS counterparts.
- The filesystem is modelled as a partial map from resource paths to
  contents; a read of an unmapped path fails (the source's caught
  fs.readFile error), and write failures are modelled by an explicit
  predicate saying which paths are writable.
-/

namespace Hardener

/-! ### JavaScript string primitives -/

/-- Whitespace in the sense of the JavaScript `\s` regex class, `trim()` and
friends, restricted to the code points exercised by this development
(space, tab, line feed, carriage return, vertical tab, form feed, NBSP). -/
def jsWhitespaceChar (c : Char) : Bool :=
  c = ' ' || c = '\t' || c = '\n' || c = '\r' || c = '\x0b' || c = '\x0c' || c = '\xa0'

/-- Boolean prefix test on character lists (first argument is the pattern). -/
def charsIsPrefixOf : List Char → List Char → Bool
  | [], _ => true
  | _ :: _, [] => false
  | p :: ps, c :: cs => p = c && charsIsPrefixOf ps cs

/-- Does the pattern occur as a contiguous substring of the second list? -/
def charsContains (pat : List Char) : List Char → Bool
  | [] => pat.isEmpty
  | c :: cs => charsIsPrefixOf pat (c :: cs) || charsContains pat cs

/-- JavaScript `s.includes(pat)` (for the non-empty literal patterns used by
the source). -/
def jsIncludes (s pat : String) : Bool :=
  charsContains pat.data s.data

/-- JavaScript `s.toLowerCase()` on ASCII text. -/
def jsToLower (s : String) : String :=
  ⟨s.data.map Char.toLower⟩

/-- JavaScript `s.trim()`: strip leading and trailing whitespace. -/
def jsTrim (s : String) : String :=
  ⟨((s.data.dropWhile jsWhitespaceChar).reverse.dropWhile jsWhitespaceChar).reverse⟩

/-- JavaScript `Math.round`: round half toward positive infinity. -/
def jsRound (q : ℚ) : ℤ :=
  ⌊q + 1 / 2⌋

/-- JavaScript `s.split('\n')`, as recursion over the character list
(accumulator holds the current line reversed). -/
def splitNewlineAux : List Char → List Char → List (List Char)
  | acc, [] => [acc.reverse]
  | acc, c :: cs =>
    if c = '\n' then acc.reverse :: splitNewlineAux [] cs
    else splitNewlineAux (c :: acc) cs

/-- JavaScript `s.split('\n')`. -/
def jsSplitNewline (s : String) : List String :=
  (splitNewlineAux [] s.data).map fun l => ⟨l⟩

/-! ### Data model (src/src/types.ts) -/

/-- Severity levels of a finding (the five-element union type of the source). -/
inductive Severity where
  | critical
  | high
  | medium
  | low
  | info
  deriving DecidableEq, Repr

/-- The string the source stores for each severity value. -/
def Severity.str : Severity → String
  | .critical => "critical"
  | .high => "high"
  | .medium => "medium"
  | .low => "low"
  | .info => "info"

/-- SecurityFinding of src/src/types.ts.  The optional `file`/`lineRange`
display fields are never read by the core logic and are not modelled. -/
structure SecurityFinding where
  id : String
  tool : String
  resource : String
  title : String
  description : String
  severity : Severity
  evidence : String
  recommendation : String
  confidence : ℚ
  category : String
  deriving DecidableEq, Repr

/-! ### Grouper (src/src/deduplication/grouper.ts) -/

/-- FindingGroup of the grouper module. -/
structure FindingGroup where
  id : String
  title : String
  category : String
  severity : Severity
  count : Nat
  findings : List SecurityFinding
  representativeFinding : SecurityFinding
  deriving DecidableEq

/-- Result record of `FindingGrouper.groupFindings`. -/
structure GroupingResult where
  groups : List FindingGroup
  uniqueFindings : List SecurityFinding
  duplicateCount : Nat
  noiseReductionPercent : ℤ
  deriving DecidableEq

/-- `FindingGrouper.generateGroupKey`: `[tool, category, title.toLowerCase().trim(), severity].join('::')`. -/
def generateGroupKey (f : SecurityFinding) : String :=
  f.tool ++ "::" ++ f.category ++ "::" ++ jsTrim (jsToLower f.title) ++ "::" ++ f.severity.str

/-- Lookup in the insertion-ordered key/group association list modelling the
JS `Map` of `groupFindings`. -/
def findGroup (k : String) : List (String × FindingGroup) → Option FindingGroup
  | [] => none
  | (k', g) :: rest => if k' = k then some g else findGroup k rest

/-- In-place update of an existing group: bump `count` and append the finding
to `findings` (the duplicate branch of `groupFindings`). -/
def addToGroup (k : String) (f : SecurityFinding) :
    List (String × FindingGroup) → List (String × FindingGroup)
  | [] => []
  | (k', g) :: rest =>
    if k' = k then
      (k', { g with count := g.count + 1, findings := g.findings ++ [f] }) :: rest
    else
      (k', g) :: addToGroup k f rest

/-- The loop of `groupFindings`: walk the findings, keyed by
`generateGroupKey`; a fresh key creates a group (appended at the end,
matching JS `Map` insertion order) and contributes the finding to
`uniqueFindings`; a seen key only updates its group. -/
def groupGo : List SecurityFinding → List (String × FindingGroup) →
    List (String × FindingGroup) × List SecurityFinding
  | [], gs => (gs, [])
  | f :: fs, gs =>
    let k := generateGroupKey f
    if (findGroup k gs).isSome then
      groupGo fs (addToGroup k f gs)
    else
      let g : FindingGroup :=
        { id := "group-" ++ k, title := f.title, category := f.category,
          severity := f.severity, count := 1, findings := [f],
          representativeFinding := f }
      let r := groupGo fs (gs ++ [(k, g)])
      (r.1, f :: r.2)

/-- `FindingGrouper.groupFindings`. -/
def groupFindings (findings : List SecurityFinding) : GroupingResult :=
  let r := groupGo findings []
  let uniqueFindings := r.2
  let duplicateCount := findings.length - uniqueFindings.length
  let noiseReductionPercent : ℤ :=
    if findings.length > 0 then
      jsRound (((duplicateCount : ℚ) / (findings.length : ℚ)) * 100)
    else 0
  { groups := r.1.map Prod.snd, uniqueFindings := uniqueFindings,
    duplicateCount := duplicateCount,
    noiseReductionPercent := noiseReductionPercent }

/-! ### RiskScorer (src/src/scoring/riskScorer.ts)

The numeric pipeline of `RiskScorer.scoreFind` is modelled in full.  The
`reasoning` string and the `factors` map are presentation-only outputs —
they are computed from the same keyword tests but feed back into none of
the numeric fields — and are not modelled. -/

/-- Risk score record (numeric fields of the source's RiskScore). -/
structure RiskScore where
  overall : ℤ
  exploitLikelihood : ℚ
  businessImpact : ℚ
  confidence : ℚ
  deriving DecidableEq, Repr

/-- Output of `calculateCVSSModifiers`: the four weights together with their
display labels, drawn from the ATTACK_COMPLEXITY, PRIVILEGES_REQUIRED,
USER_INTERACTION and SCOPE tables at the top of the module. -/
structure CVSSModifiers where
  attackComplexity : ℚ
  privilegesRequired : ℚ
  userInteraction : ℚ
  scope : ℚ
  attackComplexityLabel : String
  privilegesLabel : String
  userInteractionLabel : String
  deriving DecidableEq, Repr

/-- `RiskScorer.calculateCVSSModifiers`. -/
def calculateCVSSModifiers (f : SecurityFinding) : CVSSModifiers :=
  let evidence := jsToLower f.evidence
  let description := jsToLower f.description
  let ac : ℚ × String :=
    if jsIncludes description "chained" || jsIncludes description "multiple steps" then
      (0.4, "Expert skill required")
    else if jsIncludes description "authenticated" || jsIncludes description "requires" then
      (0.7, "Moderate skill required")
    else (1.0, "Trivial to exploit")
  let pr : ℚ × String :=
    if jsIncludes description "admin" || jsIncludes description "root" ||
        jsIncludes evidence "cluster-admin" then
      (0.3, "Admin privileges required")
    else if jsIncludes description "authenticated" || jsIncludes description "user" then
      (0.6, "Basic user access required")
    else (1.0, "No privileges needed")
  let ui : ℚ × String :=
    if jsIncludes description "click" || jsIncludes description "user action" ||
        jsIncludes description "manual" then
      (0.6, "User action needed")
    else (1.0, "Fully automated")
  let scope : ℚ :=
    if jsIncludes description "cluster" || jsIncludes description "lateral" ||
        jsIncludes description "pivot" || jsIncludes description "escape" then 1.2
    else 1.0
  { attackComplexity := ac.1, privilegesRequired := pr.1, userInteraction := ui.1,
    scope := scope, attackComplexityLabel := ac.2, privilegesLabel := pr.2,
    userInteractionLabel := ui.2 }

/-- `RiskScorer.calculateTemporalScore`: baseline 5.0, adjusted by exploit
code maturity, remediation level and report confidence, clamped to [0, 10]. -/
def calculateTemporalScore (f : SecurityFinding) : ℚ :=
  let description := jsToLower f.description
  let category := jsToLower f.category
  let score : ℚ := 5.0
  let score :=
    if jsIncludes description "poc available" || jsIncludes description "exploit" then
      score + 2.0
    else if jsIncludes description "theoretical" || jsIncludes description "no known" then
      score - 1.0
    else score
  let score :=
    if jsIncludes category "docker" && jsIncludes description "latest tag" then score + 1.0
    else score
  let score :=
    if jsIncludes description "no patch" || jsIncludes description "cannot fix" then score + 1.5
    else score
  let score := if f.confidence ≥ 0.9 then score + 0.5 else score
  max 0 (min 10 score)

/-- `RiskScorer.calculateExploitLikelihood`: additive keyword weights, then
severity and category multipliers, clamped to [0, 10].  Patterns are spelled
exactly as in the source, including the ones containing upper-case letters
that are matched against already-lower-cased text. -/
def calculateExploitLikelihood (f : SecurityFinding) : ℚ :=
  let evidence := jsToLower f.evidence
  let description := jsToLower f.description
  let title := jsToLower f.title
  let score : ℚ := 0
  let score :=
    if jsIncludes evidence "0.0.0.0" || jsIncludes evidence "internet-facing" then score + 4.5
    else if jsIncludes evidence "publicly accessible" || jsIncludes evidence "external" then
      score + 3.8
    else if jsIncludes evidence "127.0.0.1" || jsIncludes evidence "localhost" then score + 0.5
    else score
  let score :=
    if jsIncludes description "no authentication" || jsIncludes description "unauthenticated" ||
        jsIncludes evidence "anonymous" || jsIncludes title "unauthenticated" then
      score + 4.2
    else score
  let score :=
    if jsIncludes evidence "default password" || jsIncludes description "default credential" ||
        jsIncludes evidence "admin:admin" || jsIncludes evidence "root:root" then
      score + 4.8
    else score
  let score :=
    if jsIncludes description "privileged" || jsIncludes evidence "privileged: true" ||
        jsIncludes evidence "--privileged" then
      score + 3.5
    else score
  let score :=
    if jsIncludes description "hostnetwork" || jsIncludes evidence "hostNetwork: true" ||
        jsIncludes description "hostpath" then
      score + 3.2
    else score
  let score :=
    if jsIncludes description "hostipc" || jsIncludes description "hostpid" then score + 3.0
    else score
  let score :=
    if (jsIncludes description "tls" || jsIncludes description "ssl") &&
        (jsIncludes evidence "false" || jsIncludes evidence "disabled" ||
          jsIncludes description "not enabled") then
      score + 3.8
    else score
  let score :=
    if jsIncludes description "weak cipher" || jsIncludes description "sslv3" then score + 3.5
    else score
  let score :=
    if jsIncludes description "root" || jsIncludes evidence "user: root" ||
        jsIncludes evidence "uid: 0" || jsIncludes evidence "runAsNonRoot: false" then
      score + 2.8
    else score
  let score :=
    if jsIncludes description "sudo" || jsIncludes description "setuid" then score + 3.0
    else score
  let score :=
    if jsIncludes description "rce" || jsIncludes description "remote code execution" then
      score + 5.5
    else score
  let score :=
    if jsIncludes description "sql injection" || jsIncludes description "sqli" then score + 5.0
    else score
  let score :=
    if jsIncludes description "command injection" || jsIncludes description "shell injection" then
      score + 5.2
    else score
  let score :=
    if jsIncludes description "path traversal" || jsIncludes description "directory traversal" then
      score + 4.0
    else score
  let score :=
    if jsIncludes description "xxe" || jsIncludes description "xml external entity" then
      score + 4.2
    else score
  let score :=
    if jsIncludes description "ssrf" || jsIncludes description "server-side request forgery" then
      score + 4.5
    else score
  let score :=
    if jsIncludes description "secrets" || jsIncludes evidence "secret" then score + 3.5
    else score
  let score :=
    if jsIncludes description "cluster-admin" || jsIncludes evidence "cluster-admin" then
      score + 4.0
    else score
  let score :=
    if jsIncludes description "latest tag" || jsIncludes evidence ":latest" then score + 1.5
    else score
  let severityMultiplier : ℚ :=
    match f.severity with
    | .critical => 1.9
    | .high => 1.4
    | .medium => 0.85
    | .low => 0.55
    | .info => 0.35
  let categoryMultiplier : ℚ :=
    if jsIncludes f.category "kubernetes-rbac" then 1.3
    else if jsIncludes f.category "docker-security" then 1.2
    else if jsIncludes f.category "nginx-security" then 1.1
    else 1.0
  min 10 (max 0 (score * severityMultiplier * categoryMultiplier))

/-- `RiskScorer.calculateBusinessImpact`: additive keyword weights plus a
severity bonus, clamped to [0, 10]. -/
def calculateBusinessImpact (f : SecurityFinding) : ℚ :=
  let description := jsToLower f.description
  let score : ℚ := 0
  let score :=
    if jsIncludes description "secret" || jsIncludes description "credential" ||
        jsIncludes description "api key" || jsIncludes description "token" then
      score + 5
    else score
  let score :=
    if jsIncludes description "data breach" || jsIncludes description "data exfiltration" ||
        jsIncludes description "data leak" then
      score + 5
    else score
  let score :=
    if jsIncludes description "ransomware" || jsIncludes description "crypto" then score + 5
    else score
  let score :=
    if jsIncludes description "availability" || jsIncludes description "downtime" ||
        jsIncludes description "denial of service" then
      score + 4
    else score
  let score :=
    if jsIncludes description "compliance" || jsIncludes description "gdpr" ||
        jsIncludes description "hipaa" || jsIncludes description "pci-dss" then
      score + 4
    else score
  let score :=
    if jsIncludes description "lateral movement" || jsIncludes description "pivot" ||
        jsIncludes description "cluster-admin" then
      score + 4.5
    else score
  let score :=
    if jsIncludes description "etcd" || jsIncludes description "control plane" then score + 5
    else score
  let severityBonus : ℚ :=
    match f.severity with
    | .critical => 2
    | .high => 1
    | .medium => 0
    | .low => -1
    | .info => -2
  max 0 (min 10 (score + severityBonus))

/-- `RiskScorer.scoreFind`: composite 45/40/10/5-weighted score.  The
returned record rounds each sub-score to one decimal place and clamps
`overall` to [0, 100], exactly as the source does. -/
def scoreFind (f : SecurityFinding) : RiskScore :=
  let exploitLikelihood := calculateExploitLikelihood f
  let businessImpact := calculateBusinessImpact f
  let confidence := f.confidence * 5
  let m := calculateCVSSModifiers f
  let temporalScore := calculateTemporalScore f
  let adjustedExploit := exploitLikelihood * m.attackComplexity * m.privilegesRequired
  let adjustedImpact := businessImpact * m.scope
  let compositeScore :=
    (adjustedExploit * 0.45 + adjustedImpact * 0.40 + confidence * 0.10 +
      temporalScore * 0.05) / 10
  let overall := jsRound (compositeScore * 100)
  { overall := min 100 (max 0 overall),
    exploitLikelihood := (jsRound (adjustedExploit * 10) : ℚ) / 10,
    businessImpact := (jsRound (adjustedImpact * 10) : ℚ) / 10,
    confidence := (jsRound (confidence * 10) : ℚ) / 10 }

/-! ### Orchestrator scoring stage (src/src/orchestrator.ts, scoreFindings)

The source maps `scoreFind` over the unique findings (spreading the finding
into a PrioritizedFinding with `status: 'pending'`) and then calls
`Array.prototype.sort` with the comparator `(a, b) => b.riskScore.overall -
a.riskScore.overall`.  ECMAScript guarantees `sort` to be stable, so the
stage is modelled by a stable insertion sort: each element is inserted in
front of the first already-placed element whose score does not exceed it;
since insertions happen front-to-back over the input, equal scores keep
input order. -/

/-- PrioritizedFinding: a finding together with its risk score and the
`pending` status set by the scoring stage. -/
structure PrioritizedFinding where
  finding : SecurityFinding
  riskScore : RiskScore
  status : String
  deriving DecidableEq

/-- Stable descending insertion by `riskScore.overall`. -/
def insertByOverallDesc (x : PrioritizedFinding) : List PrioritizedFinding →
    List PrioritizedFinding
  | [] => [x]
  | y :: ys =>
    if y.riskScore.overall ≤ x.riskScore.overall then x :: y :: ys
    else y :: insertByOverallDesc x ys

/-- Stable sort by `riskScore.overall`, descending. -/
def sortByOverallDesc : List PrioritizedFinding → List PrioritizedFinding
  | [] => []
  | x :: xs => insertByOverallDesc x (sortByOverallDesc xs)

/-- The unsorted prioritized list (the `findings.map` step of
`Orchestrator.scoreFindings`). -/
def prioritize (findings : List SecurityFinding) : List PrioritizedFinding :=
  findings.map fun f => { finding := f, riskScore := scoreFind f, status := "pending" }

/-- `Orchestrator.scoreFindings`: score, then sort by overall descending. -/
def scoreFindings (findings : List SecurityFinding) : List PrioritizedFinding :=
  sortByOverallDesc (prioritize findings)

/-! ### Patches and the Validator (src/src/validation/validator.ts) -/

/-- Patch type union of the source. -/
inductive PatchType where
  | nginx
  | docker
  | kubernetes
  | custom
  deriving DecidableEq, Repr

/-- SecurityPatch of src/src/types.ts.  The static template text fields
(diff, assumptions, rollbackSteps, validationSteps, safetyNotes) carry no
logic and are not modelled. -/
structure SecurityPatch where
  id : String
  findingId : String
  resource : String
  type : PatchType
  before : String
  after : String
  applied : Bool
  deriving DecidableEq, Repr

/-- ValidationResult of src/src/types.ts (the timestamp is run metadata and
is not modelled). -/
structure ValidationResult where
  patchId : String
  passed : Bool
  message : String
  deriving DecidableEq, Repr

/-- The opening-brace character (written by code point to keep brace
characters out of string literals). -/
def openBrace : Char := '\x7b'

/-- The closing-brace character. -/
def closeBrace : Char := '\x7d'

/-- Number of occurrences of a character in a string, as the source's
`(s.match(/c/g) || []).length`. -/
def countChar (c : Char) (s : String) : Nat :=
  s.data.count c

/-- `Validator.validateNginx`: unbalanced braces or blank content fail. -/
def validateNginx (p : SecurityPatch) : ValidationResult :=
  if ¬(countChar openBrace p.after = countChar closeBrace p.after) then
    { patchId := p.id, passed := false,
      message := "Nginx config syntax error: unbalanced braces" }
  else if (jsTrim p.after).length = 0 then
    { patchId := p.id, passed := false, message := "Nginx config is empty" }
  else
    { patchId := p.id, passed := true, message := "Nginx config is valid" }

/-- The test `/^KW\s+/i.test(line)`: the line starts with the keyword,
case-insensitively, followed by at least one regex-whitespace character. -/
def keywordThenWS (kw line : String) : Bool :=
  jsToLower ⟨line.data.take kw.length⟩ = jsToLower kw &&
    match line.data.drop kw.length with
    | [] => false
    | c :: _ => jsWhitespaceChar c

/-- The alternation of the docker directive-keyword regex of
`validateDocker`. -/
def dockerDirectiveKeywords : List String :=
  ["RUN", "CMD", "ENTRYPOINT", "COPY", "ADD", "WORKDIR", "USER", "EXPOSE",
   "ENV", "ARG", "HEALTHCHECK", "ONBUILD", "LABEL"]

/-- `Validator.validateDocker`: requires a `FROM` line; then flags every
line satisfying `/^(RUN|...|LABEL)\s+/i.test(line) && !line.includes(' ')`
(spelled exactly as in the source). -/
def validateDocker (p : SecurityPatch) : ValidationResult :=
  let afterLines := jsSplitNewline p.after
  let hasFrom := afterLines.any fun line => keywordThenWS "FROM" line
  if ¬hasFrom then
    { patchId := p.id, passed := false,
      message := "Dockerfile must have FROM directive" }
  else
    let invalidDirectives := afterLines.filter fun line =>
      (dockerDirectiveKeywords.any fun kw => keywordThenWS kw line) &&
        !jsIncludes line " "
    if invalidDirectives.length > 0 then
      { patchId := p.id, passed := false,
        message := "Dockerfile has invalid directives: " ++
          String.intercalate ", " invalidDirectives }
    else
      { patchId := p.id, passed := true, message := "Dockerfile syntax valid" }

/-- `Validator.validateKubernetes`: requires a `kind:` line; then the first
non-blank line whose leading-whitespace count is odd fails (the kubectl
dry-run block of the source is a no-op and is not modelled). -/
def validateKubernetes (p : SecurityPatch) : ValidationResult :=
  let lines := jsSplitNewline p.after
  let hasKind := lines.any fun line => keywordThenWS "kind:" line
  if ¬hasKind then
    { patchId := p.id, passed := false,
      message := "Kubernetes manifest must have kind field" }
  else
    match lines.find? fun line =>
        !((jsTrim line).length = 0) &&
          (line.data.takeWhile jsWhitespaceChar).length % 2 = 1 with
    | some line =>
      { patchId := p.id, passed := false,
        message := "Kubernetes manifest has invalid indentation at: " ++
          ⟨line.data.take 50⟩ }
    | none =>
      { patchId := p.id, passed := true,
        message := "Kubernetes manifest syntax valid" }

/-- `Validator.validatePatch`: dispatch on the patch type; any type other
than the three known ones fails with the unknown-type message. -/
def validatePatch (p : SecurityPatch) : ValidationResult :=
  match p.type with
  | .nginx => validateNginx p
  | .docker => validateDocker p
  | .kubernetes => validateKubernetes p
  | .custom =>
    { patchId := p.id, passed := false, message := "Unknown patch type: custom" }

/-- `Orchestrator.validatePatches`: one result per patch (the source runs
them under `Promise.all`, which preserves positions). -/
def validatePatches (patches : List SecurityPatch) : List ValidationResult :=
  patches.map validatePatch

/-! ### Filesystem model, snapshots and apply (rollbackManager.ts and
orchestrator.ts)

A filesystem maps resource paths to readable content; `none` is a path
whose read fails.  Whether a write succeeds is an independent predicate
(`fs.writeFile` can succeed on a path whose read failed, and fail on a
readable one). -/

/-- Filesystem state: readable content per resource path. -/
abbrev FileSystem := String → Option String

/-- A successful write updates one path. -/
def writeFile (fileSystem : FileSystem) (rName content : String) : FileSystem :=
  fun rName' => if rName' = rName then some content else fileSystem rName'

/-- Snapshot entry of `RollbackManager.createSnapshot`. -/
structure SnapshotEntry where
  patchId : String
  resource : String
  originalContent : String
  deriving DecidableEq, Repr

/-- `RollbackManager.createSnapshot`: read every patch's resource from the
current filesystem; a failed read is skipped with a warning (the random
snapshot id and the JSON persistence, read back verbatim by `rollback`, are
not modelled — the entry list itself is the snapshot document). -/
def createSnapshot (patches : List SecurityPatch) (fileSystem : FileSystem) :
    List SnapshotEntry :=
  patches.filterMap fun p =>
    (fileSystem p.resource).map fun content =>
      { patchId := p.id, resource := p.resource, originalContent := content }

/-- `Orchestrator.applyPatches`: write each patch's `after` in sequence,
marking it applied; the first failed write returns `false` immediately,
leaving the filesystem and the remaining patches untouched. -/
def applyPatches (writeOk : String → Bool) : List SecurityPatch → FileSystem →
    FileSystem × List SecurityPatch × Bool
  | [], fileSystem => (fileSystem, [], true)
  | p :: ps, fileSystem =>
    if writeOk p.resource then
      let r := applyPatches writeOk ps (writeFile fileSystem p.resource p.after)
      (r.1, { p with applied := true } :: r.2.1, r.2.2)
    else
      (fileSystem, p :: ps, false)

/-- RollbackResult of src/src/types.ts (timestamp and the OS error text of
the failure message are not modelled). -/
structure RollbackResult where
  patchId : String
  success : Bool
  message : String
  deriving DecidableEq, Repr

/-- The entry loop of `RollbackManager.rollback`: overwrite each entry's
resource with its original content, recording per-entry success or failure;
one failure does not stop the remaining entries. -/
def rollbackEntries (writeOk : String → Bool) : List SnapshotEntry → FileSystem →
    FileSystem × List RollbackResult
  | [], fileSystem => (fileSystem, [])
  | e :: es, fileSystem =>
    if writeOk e.resource then
      let r := rollbackEntries writeOk es
        (writeFile fileSystem e.resource e.originalContent)
      (r.1, ⟨e.patchId, true, "Rolled back " ++ e.resource⟩ :: r.2)
    else
      let r := rollbackEntries writeOk es fileSystem
      (r.1, ⟨e.patchId, false, "Failed to rollback " ++ e.resource⟩ :: r.2)

/-- Result of Step 5 of `Orchestrator.harden` (the apply block). -/
structure ApplyStageResult where
  snapshot : List SnapshotEntry
  fileSystem : FileSystem
  patches : List SecurityPatch
  applyOk : Bool

/-- Step 5 of `Orchestrator.harden` in apply mode: when rollback is enabled
the snapshot of every patch resource is taken from the pre-apply
filesystem, before `applyPatches` performs any write. -/
def applyStage (enableRollback : Bool) (writeOk : String → Bool)
    (patches : List SecurityPatch) (fileSystem : FileSystem) : ApplyStageResult :=
  let snapshot := if enableRollback then createSnapshot patches fileSystem else []
  let r := applyPatches writeOk patches fileSystem
  { snapshot := snapshot, fileSystem := r.1, patches := r.2.1, applyOk := r.2.2 }

/-! ### Rollback trigger and statistics (orchestrator.ts) -/

/-- The Step 4 pass rate of `Orchestrator.harden`: `passed / total` with no
guard for an empty list — in JavaScript `0 / 0` is `NaN`, modelled as
`none`. -/
def hardenValidationPassRate (results : List ValidationResult) : Option ℚ :=
  if results.length = 0 then none
  else some ((results.filter (·.passed)).length / (results.length : ℚ))

/-- JavaScript `<` on a possibly-NaN left operand: any comparison with NaN
is false. -/
def jsNumLt (x : Option ℚ) (y : ℚ) : Bool :=
  match x with
  | none => false
  | some q => q < y

/-- The Step 6 trigger condition of `Orchestrator.harden`:
`options.enableRollback && validationPassRate < 1.0 && snapshotId` (a
non-empty string is truthy). -/
def rollbackTriggered (enableRollback : Bool) (results : List ValidationResult)
    (snapshotId : String) : Bool :=
  enableRollback && jsNumLt (hardenValidationPassRate results) 1.0 &&
    !(snapshotId = "")

/-- ReportStatistics of src/src/types.ts, with the category/severity tally
records modelled as count functions. -/
structure ReportStatistics where
  totalFindings : Nat
  uniqueFindings : Nat
  duplicateFindings : Nat
  byCategory : String → Nat
  bySeverity : Severity → Nat
  criticalCount : Nat
  highCount : Nat
  mediumCount : Nat
  lowCount : Nat
  patchedCount : Nat
  validationPassRate : ℚ
  rollbackSuccessRate : ℚ
  noiseReductionPercent : ℤ
  groupCount : Nat

/-- `Orchestrator.computeStatistics`. -/
def computeStatistics (groupingResult : GroupingResult)
    (findings : List SecurityFinding) (patches : List SecurityPatch)
    (validationResults : List ValidationResult)
    (rollbackResults : List RollbackResult) : ReportStatistics :=
  let bySeverity := fun s =>
    (groupingResult.uniqueFindings.filter fun f => f.severity == s).length
  let byCategory := fun c =>
    (groupingResult.uniqueFindings.filter fun f => f.category == c).length
  { totalFindings := findings.length,
    uniqueFindings := groupingResult.uniqueFindings.length,
    duplicateFindings := groupingResult.duplicateCount,
    byCategory := byCategory,
    bySeverity := bySeverity,
    criticalCount := bySeverity .critical,
    highCount := bySeverity .high,
    mediumCount := bySeverity .medium,
    lowCount := bySeverity .low,
    patchedCount := (patches.filter (·.applied)).length,
    validationPassRate :=
      if validationResults.length > 0 then
        ((validationResults.filter (·.passed)).length : ℚ) / validationResults.length
      else 1.0,
    rollbackSuccessRate :=
      if rollbackResults.length > 0 then
        ((rollbackResults.filter (·.success)).length : ℚ) / rollbackResults.length
      else 1.0,
    noiseReductionPercent := groupingResult.noiseReductionPercent,
    groupCount := groupingResult.groups.length }

/-! ## Theorems -/

/-! ### Grouper lemmas -/

/-- The grouping key only reads the tool, category, title and severity
fields. -/
theorem generateGroupKey_congr {f1 f2 : SecurityFinding} (htool : f1.tool = f2.tool)
    (hcat : f1.category = f2.category) (htitle : f1.title = f2.title)
    (hsev : f1.severity = f2.severity) : generateGroupKey f1 = generateGroupKey f2 := by
  simp [generateGroupKey, htool, hcat, htitle, hsev]

/-- A key is found in the group map exactly when it is one of its keys. -/
theorem findGroup_isSome (k : String) (gs : List (String × FindingGroup)) :
    (findGroup k gs).isSome = true ↔ k ∈ gs.map Prod.fst := by
  induction gs with
  | nil => simp [findGroup]
  | cons hd tl ih =>
    obtain ⟨k', g⟩ := hd
    by_cases h : k' = k
    · simp [findGroup, h]
    · simp [findGroup, h, ih, Ne.symm h]

/-- Updating an existing group does not change the key list. -/
theorem addToGroup_keys (k : String) (f : SecurityFinding)
    (gs : List (String × FindingGroup)) :
    (addToGroup k f gs).map Prod.fst = gs.map Prod.fst := by
  induction gs with
  | nil => simp [addToGroup]
  | cons hd tl ih =>
    obtain ⟨k', g⟩ := hd
    by_cases h : k' = k
    · simp [addToGroup, h]
    · simp [addToGroup, h, ih]

/-- The unique findings produced by the grouping loop have pairwise-distinct
keys, all of them fresh with respect to the group map the loop started
from. -/
theorem groupGo_keys_nodup (l : List SecurityFinding) :
    ∀ gs : List (String × FindingGroup),
      ((groupGo l gs).2.map generateGroupKey).Nodup ∧
      ∀ k ∈ (groupGo l gs).2.map generateGroupKey, k ∉ gs.map Prod.fst := by
  induction l with
  | nil => simp [groupGo]
  | cons f fs ih =>
    intro gs
    by_cases h : (findGroup (generateGroupKey f) gs).isSome = true
    · rw [groupGo]
      simp only [h, if_true]
      obtain ⟨h1, h2⟩ := ih (addToGroup (generateGroupKey f) f gs)
      refine ⟨h1, fun k hk => ?_⟩
      have := h2 k hk
      rwa [addToGroup_keys] at this
    · rw [groupGo]
      simp only [h, Bool.false_eq_true, if_false]
      obtain ⟨h1, h2⟩ := ih (gs ++ [(generateGroupKey f,
        { id := "group-" ++ generateGroupKey f, title := f.title,
          category := f.category, severity := f.severity, count := 1,
          findings := [f], representativeFinding := f })])
      simp only [List.map_cons, List.nodup_cons, List.mem_cons]
      have hfresh : generateGroupKey f ∉ gs.map Prod.fst := by
        intro hmem
        exact h ((findGroup_isSome _ _).mpr hmem)
      refine ⟨⟨fun hmem => ?_, h1⟩, fun k hk => ?_⟩
      · have := h2 _ hmem
        simp at this
      · rcases hk with hk | hk
        · exact hk ▸ hfresh
        · intro hmem
          exact (h2 k hk) (by simp [hmem])

/-- Grouping a list whose keys are pairwise distinct and absent from the
starting group map returns it unchanged. -/
theorem groupGo_fresh_nodup_id (l : List SecurityFinding) :
    ∀ gs : List (String × FindingGroup), (l.map generateGroupKey).Nodup →
      (∀ k ∈ l.map generateGroupKey, k ∉ gs.map Prod.fst) →
      (groupGo l gs).2 = l := by
  induction l with
  | nil => simp [groupGo]
  | cons f fs ih =>
    intro gs hnodup hfresh
    have hf : generateGroupKey f ∉ gs.map Prod.fst := hfresh _ (by simp)
    have h : ¬(findGroup (generateGroupKey f) gs).isSome = true := by
      rw [findGroup_isSome]
      exact hf
    rw [List.map_cons, List.nodup_cons] at hnodup
    rw [groupGo]
    simp only [h, Bool.false_eq_true, if_false]
    simp only [List.cons.injEq, true_and]
    apply ih
    · exact hnodup.2
    · intro k hk
      simp only [List.map_append, List.mem_append, List.map_cons]
      rintro (hmem | hmem)
      · exact hfresh k (by simp [hk]) hmem
      · simp only [List.map_nil, List.mem_cons, List.not_mem_nil, or_false] at hmem
        exact hnodup.1 (hmem ▸ hk)

/-! ### C7 and C8: grouping correctness and idempotence -/

/-- C7: for two findings that agree on tool, category, title and severity
(differing, say, only in `resource`), `groupFindings` on the two-element
list keeps exactly the first finding as unique, counts one duplicate, and
reports 50 percent noise reduction. -/
theorem groupFindings_pair_same_key (f1 f2 : SecurityFinding)
    (htool : f1.tool = f2.tool) (hcat : f1.category = f2.category)
    (htitle : f1.title = f2.title) (hsev : f1.severity = f2.severity) :
    (groupFindings [f1, f2]).uniqueFindings = [f1] ∧
    (groupFindings [f1, f2]).duplicateCount = 1 ∧
    (groupFindings [f1, f2]).noiseReductionPercent = 50 := by
  have hk : generateGroupKey f1 = generateGroupKey f2 :=
    generateGroupKey_congr htool hcat htitle hsev
  have huniq : (groupGo [f1, f2] []).2 = [f1] := by
    rw [groupGo]
    simp only [findGroup, Option.isSome_none, Bool.false_eq_true, if_false]
    rw [groupGo]
    simp [findGroup, ← hk, groupGo]
  refine ⟨?_, ?_, ?_⟩
  · simp [groupFindings, huniq]
  · simp [groupFindings, huniq]
  · simp only [groupFindings, huniq]
    norm_num [jsRound]

/-- Concrete witness for C7: two findings identical except for `resource`. -/
def pairFinding1 : SecurityFinding :=
  ⟨"w-pair-1", "config-reader", "conf/a.conf", "Server tokens enabled", "desc",
   .medium, "server_tokens on", "disable", 1, "nginx-config"⟩

/-- Second witness finding for C7, differing from the first only in
`resource` and `id`. -/
def pairFinding2 : SecurityFinding :=
  ⟨"w-pair-2", "config-reader", "conf/b.conf", "Server tokens enabled", "desc",
   .medium, "server_tokens on", "disable", 1, "nginx-config"⟩

/-- Witness for C7 at the two concrete findings above. -/
theorem groupFindings_pair_same_key_witness :
    (groupFindings [pairFinding1, pairFinding2]).uniqueFindings = [pairFinding1] ∧
    (groupFindings [pairFinding1, pairFinding2]).duplicateCount = 1 ∧
    (groupFindings [pairFinding1, pairFinding2]).noiseReductionPercent = 50 :=
  groupFindings_pair_same_key pairFinding1 pairFinding2 rfl rfl rfl rfl

/-- C8: grouping is idempotent — regrouping the unique findings of a
previous grouping returns the same list in the same order, with zero
duplicates and zero percent noise reduction. -/
theorem groupFindings_idempotent (l : List SecurityFinding) :
    (groupFindings (groupFindings l).uniqueFindings).uniqueFindings =
      (groupFindings l).uniqueFindings ∧
    (groupFindings (groupFindings l).uniqueFindings).duplicateCount = 0 ∧
    (groupFindings (groupFindings l).uniqueFindings).noiseReductionPercent = 0 := by
  have hkeys : (((groupGo l []).2).map generateGroupKey).Nodup :=
    (groupGo_keys_nodup l []).1
  have hid : (groupGo (groupGo l []).2 []).2 = (groupGo l []).2 :=
    groupGo_fresh_nodup_id _ [] hkeys (by simp)
  refine ⟨?_, ?_, ?_⟩
  · simp [groupFindings, hid]
  · simp [groupFindings, hid]
  · simp only [groupFindings, hid]
    rcases Nat.eq_zero_or_pos ((groupGo l []).2).length with hz | hpos
    · simp [hz]
    · simp only [Nat.sub_self]
      rw [if_pos hpos]
      norm_num [jsRound]

/-! ### Sorting lemmas for the scoring stage -/

/-- Membership after stable insertion. -/
theorem mem_insertByOverallDesc {z x : PrioritizedFinding}
    {l : List PrioritizedFinding} (h : z ∈ insertByOverallDesc x l) :
    z = x ∨ z ∈ l := by
  induction l with
  | nil => simpa [insertByOverallDesc] using h
  | cons y ys ih =>
    rw [insertByOverallDesc] at h
    by_cases hc : y.riskScore.overall ≤ x.riskScore.overall
    · rw [if_pos hc] at h
      rcases List.mem_cons.mp h with h | h
      · exact Or.inl h
      · exact Or.inr h
    · rw [if_neg hc] at h
      rcases List.mem_cons.mp h with h | h
      · exact Or.inr (by simp [h])
      · rcases ih h with h | h
        · exact Or.inl h
        · exact Or.inr (by simp [h])

/-- Stable insertion preserves the descending-by-overall invariant. -/
theorem pairwise_insertByOverallDesc (x : PrioritizedFinding)
    (l : List PrioritizedFinding)
    (h : l.Pairwise fun a b => b.riskScore.overall ≤ a.riskScore.overall) :
    (insertByOverallDesc x l).Pairwise
      (fun a b => b.riskScore.overall ≤ a.riskScore.overall) := by
  induction l with
  | nil => simp [insertByOverallDesc]
  | cons y ys ih =>
    rw [List.pairwise_cons] at h
    rw [insertByOverallDesc]
    by_cases hc : y.riskScore.overall ≤ x.riskScore.overall
    · rw [if_pos hc]
      rw [List.pairwise_cons]
      refine ⟨fun z hz => ?_, List.pairwise_cons.mpr h⟩
      rcases List.mem_cons.mp hz with hz | hz
      · exact hz ▸ hc
      · exact le_trans (h.1 z hz) hc
    · rw [if_neg hc]
      rw [List.pairwise_cons]
      refine ⟨fun z hz => ?_, ih h.2⟩
      rcases mem_insertByOverallDesc hz with hz | hz
      · exact hz ▸ le_of_lt (lt_of_not_le hc)
      · exact h.1 z hz

/-- The scoring-stage sort output is descending in `overall`. -/
theorem pairwise_sortByOverallDesc (l : List PrioritizedFinding) :
    (sortByOverallDesc l).Pairwise
      (fun a b => b.riskScore.overall ≤ a.riskScore.overall) := by
  induction l with
  | nil => simp [sortByOverallDesc]
  | cons x xs ih => exact pairwise_insertByOverallDesc x _ ih

/-- Inserting an element commutes with filtering by an exact overall value:
the element lands in front of the equal-score block, so when its score is
the filtered value it becomes the head of the filtered list. -/
theorem filter_insertByOverallDesc (v : ℤ) (x : PrioritizedFinding)
    (l : List PrioritizedFinding) :
    (insertByOverallDesc x l).filter (fun p => p.riskScore.overall == v) =
      if x.riskScore.overall = v then
        x :: l.filter (fun p => p.riskScore.overall == v)
      else l.filter (fun p => p.riskScore.overall == v) := by
  induction l with
  | nil =>
    by_cases hx : x.riskScore.overall = v
    · simp [insertByOverallDesc, hx]
    · simp [insertByOverallDesc, hx]
  | cons y ys ih =>
    rw [insertByOverallDesc]
    by_cases hc : y.riskScore.overall ≤ x.riskScore.overall
    · rw [if_pos hc]
      by_cases hx : x.riskScore.overall = v
      · simp [hx, List.filter_cons]
      · simp [hx, List.filter_cons]
    · rw [if_neg hc]
      have hyx : x.riskScore.overall < y.riskScore.overall := lt_of_not_le hc
      by_cases hy : y.riskScore.overall = v
      · have hx : ¬x.riskScore.overall = v := by
          intro hx
          exact absurd (hx ▸ hy ▸ hyx) (lt_irrefl _)
        rw [List.filter_cons, List.filter_cons]
        simp only [hy, ih, hx, if_false, if_neg hx]
      · by_cases hx : x.riskScore.overall = v
        · rw [List.filter_cons, List.filter_cons]
          simp only [hy, ih, hx, if_true, if_pos hx]
          simp [hy]
        · rw [List.filter_cons, List.filter_cons]
          simp only [hy, ih, hx, if_neg hx]
          simp [hy]

/-- Sorting commutes with filtering by an exact overall value: the
equal-score elements appear in the sorted output in their input order. -/
theorem filter_sortByOverallDesc (v : ℤ) (l : List PrioritizedFinding) :
    (sortByOverallDesc l).filter (fun p => p.riskScore.overall == v) =
      l.filter (fun p => p.riskScore.overall == v) := by
  induction l with
  | nil => simp [sortByOverallDesc]
  | cons x xs ih =>
    rw [sortByOverallDesc, filter_insertByOverallDesc, List.filter_cons]
    by_cases hx : x.riskScore.overall = v
    · simp [hx, ih]
    · simp [hx, ih]

/-! ### C6: the prioritized plan is sorted descending and stable -/

/-- C6: for every input list of findings, the plan produced by the scoring
stage is sorted by `riskScore.overall` in descending order (every adjacent
pair included), and for every score value the sub-list of plan entries with
that score equals the corresponding sub-list of the scored input — i.e.
ties retain their relative input order (stability). -/
theorem scoreFindings_sorted_and_stable (findings : List SecurityFinding) :
    (scoreFindings findings).Pairwise
      (fun a b => b.riskScore.overall ≤ a.riskScore.overall) ∧
    ∀ v : ℤ, (scoreFindings findings).filter (fun p => p.riskScore.overall == v) =
      (prioritize findings).filter (fun p => p.riskScore.overall == v) :=
  ⟨pairwise_sortByOverallDesc (prioritize findings),
   fun v => filter_sortByOverallDesc v (prioritize findings)⟩

/-! ### C4: the returned businessImpact escapes the [0, 10] bound

`calculateBusinessImpact` clamps its subtotal to [0, 10], but `scoreFind`
then multiplies by the scope weight (1.2 when the description mentions
cluster/lateral/pivot/escape) and stores the product in the returned
record, so a description that maxes the impact subtotal and also triggers
the CHANGED scope yields `businessImpact = 12`.  The double-precision
computation of the source agrees: `Math.min(10, 12) * 1.2 === 12` exactly.
This contradicts the `// 0-5 (extended to 0-10 for critical)` documentation
of `RiskScore.businessImpact` in src/src/types.ts. -/

/-- Failing input for C4: impact keywords sum to 12, clamped to 10, then the
`cluster` mention applies the 1.2 scope multiplier. -/
def impactOverflowFinding : SecurityFinding :=
  ⟨"f-impact", "scanner", "app.yaml", "Secrets readable across the cluster",
   "secret data breach cluster", .critical, "", "", 1/2, "kubernetes-security"⟩

/-- C4 is violated by the code: at the failing input the returned
`businessImpact` equals 12, strictly above the claimed [0, 10] bound. -/
theorem scoreFind_businessImpact_exceeds_ten :
    (scoreFind impactOverflowFinding).businessImpact = 12 ∧
    ¬((scoreFind impactOverflowFinding).businessImpact ≤ 10) := by
  have h : (scoreFind impactOverflowFinding).businessImpact = 12 := by
    simp +decide [scoreFind, calculateBusinessImpact, calculateCVSSModifiers,
      jsRound, impactOverflowFinding]
    norm_num [min_def, max_def]
  refine ⟨h, ?_⟩
  rw [h]
  norm_num

/-! ### C5: the temporal score of a "no known exploit" finding

The exploit-maturity branch tests `description.includes('exploit')` before
the `theoretical` / `no known` branch, and the phrase `no known exploit`
contains the substring `exploit`, so such a finding takes the +2.0 branch
(temporal 7.0), not the −1.0 branch (temporal 4.0) the claim derives. -/

/-- Counterexample input for C5: description "no known exploit", confidence
below 0.9, non-docker category, no other temporal keywords. -/
def noKnownExploitFinding : SecurityFinding :=
  ⟨"f-nke", "scanner", "web.conf", "Outdated module", "no known exploit",
   .medium, "", "", 1/2, "web-config"⟩

/-- C5 as stated is false: the temporal score of the counterexample finding
is 7.0, not the claimed 4.0. -/
theorem temporalScore_no_known_exploit_cex :
    calculateTemporalScore noKnownExploitFinding = 7 ∧
    calculateTemporalScore noKnownExploitFinding ≠ 4 := by
  have h : calculateTemporalScore noKnownExploitFinding = 7 := by
    simp +decide [calculateTemporalScore, noKnownExploitFinding]
    norm_num [min_def, max_def]
  refine ⟨h, ?_⟩
  rw [h]
  norm_num

/-- C5 amended: the −1.0 branch fires only when neither `poc available` nor
the substring `exploit` occurs in the description; under those conditions a
`theoretical` / `no known` description with confidence below 0.9 and none
of the remediation keywords scores exactly 4.0. -/
theorem temporalScore_minus_one_branch (f : SecurityFinding)
    (hpoc : jsIncludes (jsToLower f.description) "poc available" = false)
    (hexp : jsIncludes (jsToLower f.description) "exploit" = false)
    (hnk : (jsIncludes (jsToLower f.description) "theoretical" ||
      jsIncludes (jsToLower f.description) "no known") = true)
    (hdl : (jsIncludes (jsToLower f.category) "docker" &&
      jsIncludes (jsToLower f.description) "latest tag") = false)
    (hnp : jsIncludes (jsToLower f.description) "no patch" = false)
    (hcf : jsIncludes (jsToLower f.description) "cannot fix" = false)
    (hconf : ¬(f.confidence ≥ 0.9)) :
    calculateTemporalScore f = 4 := by
  simp only [calculateTemporalScore, hpoc, hexp, hnk, hdl, hnp, hcf, hconf,
    Bool.false_eq_true, if_false, if_true, Bool.or_self, if_neg hconf]
  norm_num [min_def, max_def]

/-- Concrete finding for the C5 witness: `no known issues` triggers the
−1.0 branch without containing `exploit`. -/
def noKnownIssuesFinding : SecurityFinding :=
  ⟨"f-nki", "scanner", "web.conf", "Outdated module", "no known issues",
   .medium, "", "", 1/2, "web-config"⟩

/-- Witness for the amended C5 at the concrete finding above. -/
theorem temporalScore_minus_one_branch_witness :
    calculateTemporalScore noKnownIssuesFinding = 4 :=
  temporalScore_minus_one_branch noKnownIssuesFinding (by decide) (by decide)
    (by decide) (by decide) (by decide) (by decide)
    (by norm_num [noKnownIssuesFinding])

/-! ### C9: the bare-directive check of validateDocker is vacuous on bare
keywords

The filter is `/^(RUN|...)\s+/i.test(line) && !line.includes(' ')`.  A line
that is exactly `RUN` does not match the regex (no trailing whitespace), so
it is never flagged; a line matching the regex with a space separator always
contains `' '`, so the only flagged lines are keyword-then-tab lines — which
do carry an argument.  Both halves of the claim fail, against the evident
intent of the `invalidDirectives` check. -/

/-- Failing input for C9: a Dockerfile patch whose `after` content ends in a
bare `RUN` line. -/
def bareRunPatch : SecurityPatch :=
  ⟨"patch-d1", "find-d1", "Dockerfile", .docker, "FROM node:latest",
   "FROM node:20\nRUN", false⟩

/-- Companion input for C9: a keyword followed by a tab-separated argument,
a line that does have an argument. -/
def tabbedRunPatch : SecurityPatch :=
  ⟨"patch-d2", "find-d2", "Dockerfile", .docker, "FROM node:20",
   "FROM node:20\nRUN\tapt-get", false⟩

/-- C9 is violated by the code: the bare `RUN` line passes validation, while
the keyword-tab-argument line fails it. -/
theorem validateDocker_bare_keyword_passes :
    (validatePatch bareRunPatch).passed = true ∧
    (validatePatch tabbedRunPatch).passed = false := by
  decide

/-! ### Snapshot and apply lemmas -/

/-- A patch whose resource reads successfully at snapshot time has its
pre-image recorded as a snapshot entry. -/
theorem createSnapshot_mem (patches : List SecurityPatch) (fs0 : FileSystem)
    (p : SecurityPatch) (content : String) (hp : p ∈ patches)
    (hread : fs0 p.resource = some content) :
    (⟨p.id, p.resource, content⟩ : SnapshotEntry) ∈ createSnapshot patches fs0 := by
  rw [createSnapshot, List.mem_filterMap]
  exact ⟨p, hp, by rw [hread]; rfl⟩

/-- The snapshot's resource list is a sublist of the patches' resource
list. -/
theorem createSnapshot_resources_sublist (patches : List SecurityPatch)
    (fs0 : FileSystem) :
    ((createSnapshot patches fs0).map (·.resource)).Sublist
      (patches.map (·.resource)) := by
  induction patches with
  | nil => simp [createSnapshot]
  | cons q qs ih =>
    rw [createSnapshot, List.filterMap_cons]
    cases h : fs0 q.resource with
    | none =>
      simp only [Option.map_none, List.map_cons]
      exact (ih : _).cons _
    | some c =>
      simp only [Option.map_some, List.map_cons]
      exact (ih : _).cons₂ _

/-- Rolling back entries that never mention a resource leaves that resource
untouched. -/
theorem rollbackEntries_untouched (writeOk : String → Bool) (rName : String) :
    ∀ entries : List SnapshotEntry, rName ∉ entries.map (·.resource) →
      ∀ fs : FileSystem, (rollbackEntries writeOk entries fs).1 rName = fs rName := by
  intro entries
  induction entries with
  | nil =>
    intro _ fs
    simp [rollbackEntries]
  | cons e es ih =>
    intro h fs
    simp only [List.map_cons, List.mem_cons, not_or] at h
    rw [rollbackEntries]
    by_cases hw : writeOk e.resource = true
    · rw [if_pos hw]
      rw [ih (by simpa using h.2) _]
      simp [writeFile, h.1]
    · rw [if_neg hw]
      exact ih (by simpa using h.2) fs

/-- If a snapshot entry's resource occurs exactly once among the entries and
its rollback write succeeds, the rollback loop leaves that resource holding
the entry's original content and records a success result for the entry. -/
theorem rollbackEntries_restores (writeOk : String → Bool) (e0 : SnapshotEntry)
    (hw : writeOk e0.resource = true) :
    ∀ entries : List SnapshotEntry, e0 ∈ entries →
      ((entries.map (·.resource)).Nodup) →
      ∀ fs : FileSystem,
        (rollbackEntries writeOk entries fs).1 e0.resource =
          some e0.originalContent ∧
        (⟨e0.patchId, true, "Rolled back " ++ e0.resource⟩ : RollbackResult) ∈
          (rollbackEntries writeOk entries fs).2 := by
  intro entries
  induction entries with
  | nil =>
    intro he
    cases he
  | cons e es ih =>
    intro he hnodup fs
    rw [List.map_cons, List.nodup_cons] at hnodup
    rcases List.mem_cons.mp he with he0 | he0
    · subst he0
      rw [rollbackEntries, if_pos hw]
      constructor
      · rw [rollbackEntries_untouched writeOk e0.resource es hnodup.1 _]
        simp [writeFile]
      · simp
    · rw [rollbackEntries]
      by_cases hwe : writeOk e.resource = true
      · rw [if_pos hwe]
        obtain ⟨h1, h2⟩ := ih he0 hnodup.2
          (writeFile fs e.resource e.originalContent)
        exact ⟨h1, List.mem_cons_of_mem _ h2⟩
      · rw [if_neg hwe]
        obtain ⟨h1, h2⟩ := ih he0 hnodup.2 fs
        exact ⟨h1, List.mem_cons_of_mem _ h2⟩

/-! ### C1: snapshot coverage before apply

The claim as stated is false: `createSnapshot` skips an unreadable
resource, but `applyPatches` writes every patch regardless, so a skipped
resource is overwritten with no recorded pre-image.  What does hold, and is
proved below, is the coverage property restricted to resources that were
readable at snapshot time, together with the ordering built into
`applyStage` (the snapshot is taken from the pre-apply filesystem). -/

/-- The C1 property as a Boolean check: with rollback enabled, every patch
of the batch has a snapshot entry recording that resource's pre-apply
content. -/
def snapshotCoversAll (writeOk : String → Bool) (patches : List SecurityPatch)
    (fileSystem : FileSystem) : Bool :=
  patches.all fun p =>
    (applyStage true writeOk patches fileSystem).snapshot.any fun e =>
      e.patchId == p.id && e.resource == p.resource &&
        fileSystem p.resource == some e.originalContent

/-- Patch over an unreadable resource, for the C1 counterexample. -/
def unreadablePatch : SecurityPatch :=
  ⟨"p-unreadable", "f-unreadable", "missing.conf", .nginx, "",
   "hardened content", false⟩

/-- Filesystem on which every read fails. -/
def unreadableFS : FileSystem := fun _ => none

/-- Write predicate that lets every write succeed. -/
def anyWrite : String → Bool := fun _ => true

/-- C1 as stated is false: with rollback enabled and writes succeeding, a
patch whose resource is unreadable at snapshot time produces no snapshot
entry, yet the apply step still marks it applied and overwrites the
resource. -/
theorem applyStage_writes_unsnapshotted_resource :
    (applyStage true anyWrite [unreadablePatch] unreadableFS).snapshot = [] ∧
    (applyStage true anyWrite [unreadablePatch] unreadableFS).patches =
      [{ unreadablePatch with applied := true }] ∧
    (applyStage true anyWrite [unreadablePatch] unreadableFS).fileSystem
      "missing.conf" = some "hardened content" := by
  refine ⟨by decide, ?_, ?_⟩
  · simp +decide [applyStage, applyPatches, writeFile]
  · simp +decide [applyStage, applyPatches, writeFile, unreadableFS]

/-- C1 amended: when rollback is enabled and every patch resource is
readable at snapshot time, each patch's pre-apply content is recorded as a
snapshot entry of the apply stage (which snapshots before writing). -/
theorem applyStage_snapshot_covers_readable (writeOk : String → Bool)
    (patches : List SecurityPatch) (fileSystem : FileSystem)
    (hread : (patches.all fun p => (fileSystem p.resource).isSome) = true) :
    snapshotCoversAll writeOk patches fileSystem = true := by
  rw [snapshotCoversAll, List.all_eq_true]
  rw [List.all_eq_true] at hread
  intro p hp
  obtain ⟨c, hc⟩ := Option.isSome_iff_exists.mp (hread p hp)
  rw [List.any_eq_true]
  refine ⟨⟨p.id, p.resource, c⟩, ?_, ?_⟩
  · show _ ∈ (applyStage true writeOk patches fileSystem).snapshot
    simp only [applyStage, if_true]
    exact createSnapshot_mem patches fileSystem p c hp hc
  · simp [hc]

/-- Readable patch for the C1 witness. -/
def readablePatch : SecurityPatch :=
  ⟨"p-readable", "f-readable", "web.conf", .nginx, "old content",
   "new content", false⟩

/-- Filesystem for the C1 witness: exactly the patched resource is
readable. -/
def readableFS : FileSystem :=
  fun rName => if rName = "web.conf" then some "old content" else none

/-- Witness for the amended C1 at a concrete readable batch. -/
theorem applyStage_snapshot_covers_readable_witness :
    snapshotCoversAll anyWrite [readablePatch] readableFS = true :=
  applyStage_snapshot_covers_readable anyWrite [readablePatch] readableFS
    (by decide)

/-! ### C2: the apply step is sequential and fail-fast -/

/-- C2: if every patch before `p` writes successfully and `p`'s write
fails, `applyPatches` reports failure, marks exactly the patches before
`p` applied (leaving `p` and every later patch untouched, their `applied`
flags unchanged), and no resource other than those written before the
failure changes on disk. -/
theorem applyPatches_fail_fast (writeOk : String → Bool)
    (pre : List SecurityPatch) (p : SecurityPatch) (post : List SecurityPatch)
    (fileSystem : FileSystem)
    (hpre : ∀ q ∈ pre, writeOk q.resource = true)
    (hp : writeOk p.resource = false) :
    (applyPatches writeOk (pre ++ p :: post) fileSystem).2.2 = false ∧
    (applyPatches writeOk (pre ++ p :: post) fileSystem).2.1 =
      pre.map (fun q => { q with applied := true }) ++ p :: post ∧
    ∀ rName : String, rName ∉ pre.map (·.resource) →
      (applyPatches writeOk (pre ++ p :: post) fileSystem).1 rName =
        fileSystem rName := by
  induction pre generalizing fileSystem with
  | nil =>
    rw [List.nil_append, applyPatches, if_neg (by simp [hp])]
    simp
  | cons q qs ih =>
    have hq : writeOk q.resource = true := hpre q (List.mem_cons_self q qs)
    rw [List.cons_append, applyPatches, if_pos hq]
    obtain ⟨h1, h2, h3⟩ := ih (writeFile fileSystem q.resource q.after)
      (fun q' hq' => hpre q' (List.mem_cons_of_mem q hq'))
    refine ⟨h1, ?_, ?_⟩
    · simp [h2]
    · intro rName hr
      simp only [List.map_cons, List.mem_cons, not_or] at hr
      rw [h3 rName (by simpa using hr.2)]
      simp [writeFile, hr.1]

/-- Patch written before the failure, for the C2 witness. -/
def prePatchW : SecurityPatch :=
  ⟨"p-pre", "f-pre", "etc/a.conf", .nginx, "a0", "a1", false⟩

/-- Patch whose write fails, for the C2 witness. -/
def failPatchW : SecurityPatch :=
  ⟨"p-fail", "f-fail", "etc/b.conf", .nginx, "b0", "b1", false⟩

/-- Patch after the failure, for the C2 witness. -/
def postPatchW : SecurityPatch :=
  ⟨"p-post", "f-post", "etc/c.conf", .nginx, "c0", "c1", false⟩

/-- Write predicate failing exactly on the middle patch's resource. -/
def failWriteOk : String → Bool := fun rName => !(rName == "etc/b.conf")

/-- Filesystem for the C2 witness. -/
def applyFSW : FileSystem :=
  fun rName => if rName = "etc/c.conf" then some "c0" else some "x"

/-- Witness for C2: at the concrete three-patch batch, the apply step
reports failure, the failing and later patches come back unchanged, and the
later patch's resource is untouched. -/
theorem applyPatches_fail_fast_witness :
    (applyPatches failWriteOk ([prePatchW] ++ failPatchW :: [postPatchW])
      applyFSW).2.2 = false ∧
    (applyPatches failWriteOk ([prePatchW] ++ failPatchW :: [postPatchW])
      applyFSW).2.1 =
      [prePatchW].map (fun q => { q with applied := true }) ++
        failPatchW :: [postPatchW] ∧
    (applyPatches failWriteOk ([prePatchW] ++ failPatchW :: [postPatchW])
      applyFSW).1 "etc/c.conf" = applyFSW "etc/c.conf" := by
  obtain ⟨h1, h2, h3⟩ := applyPatches_fail_fast failWriteOk [prePatchW]
    failPatchW [postPatchW] applyFSW (by decide) (by decide)
  exact ⟨h1, h2, h3 "etc/c.conf" (by decide)⟩

/-! ### C3: rollback restores the snapshot-time pre-image -/

/-- C3: take a snapshot of a batch whose resources are pairwise distinct;
for any patch whose resource was readable at snapshot time, and any state
of the filesystem afterwards (arbitrary overwrites), rolling back the
snapshot with a succeeding write restores the resource to its exact
snapshot-time content and records a per-entry success result for that
patch. -/
theorem rollback_restores_preimage (patches : List SecurityPatch)
    (fs0 fs1 : FileSystem) (writeOk : String → Bool) (p : SecurityPatch)
    (content : String) (hp : p ∈ patches)
    (hread : fs0 p.resource = some content)
    (hnodup : (patches.map (·.resource)).Nodup)
    (hw : writeOk p.resource = true) :
    (rollbackEntries writeOk (createSnapshot patches fs0) fs1).1 p.resource =
      some content ∧
    (⟨p.id, true, "Rolled back " ++ p.resource⟩ : RollbackResult) ∈
      (rollbackEntries writeOk (createSnapshot patches fs0) fs1).2 := by
  have hmem := createSnapshot_mem patches fs0 p content hp hread
  have hsnod : ((createSnapshot patches fs0).map (·.resource)).Nodup :=
    hnodup.sublist (createSnapshot_resources_sublist patches fs0)
  exact rollbackEntries_restores writeOk ⟨p.id, p.resource, content⟩ hw
    (createSnapshot patches fs0) hmem hsnod fs1

/-- Patch for the C3 witness. -/
def rbPatch : SecurityPatch :=
  ⟨"p-rb", "f-rb", "db.conf", .nginx, "orig bytes", "patched bytes", false⟩

/-- Snapshot-time filesystem for the C3 witness. -/
def rbFS0 : FileSystem :=
  fun rName => if rName = "db.conf" then some "orig bytes" else none

/-- Post-overwrite filesystem for the C3 witness (arbitrary new content). -/
def rbFS1 : FileSystem :=
  fun rName => if rName = "db.conf" then some "overwritten" else none

/-- Witness for C3: rolling back the concrete snapshot restores the
byte-identical pre-image and reports success for the patch. -/
theorem rollback_restores_preimage_witness :
    (rollbackEntries anyWrite (createSnapshot [rbPatch] rbFS0) rbFS1).1
      "db.conf" = some "orig bytes" ∧
    (⟨"p-rb", true, "Rolled back " ++ "db.conf"⟩ : RollbackResult) ∈
      (rollbackEntries anyWrite (createSnapshot [rbPatch] rbFS0) rbFS1).2 :=
  rollback_restores_preimage [rbPatch] rbFS0 rbFS1 anyWrite rbPatch
    "orig bytes" (by decide) (by decide) (by decide) (by decide)

/-! ### C10: an empty patch list never triggers rollback -/

/-- C10: with no patches there are no validation results; the harden-step
pass rate is the JavaScript `0 / 0 = NaN`, whose comparison `NaN < 1.0` is
false, so the rollback stage is not triggered for any flag/snapshot-id
combination; and the reported statistics fall back to a pass rate of 1.0. -/
theorem empty_patches_no_rollback (enableRollback : Bool) (snapshotId : String)
    (groupingResult : GroupingResult) (findings : List SecurityFinding)
    (rollbackResults : List RollbackResult) :
    rollbackTriggered enableRollback (validatePatches []) snapshotId = false ∧
    (computeStatistics groupingResult findings [] (validatePatches [])
      rollbackResults).validationPassRate = 1 := by
  constructor
  · simp [validatePatches, rollbackTriggered, hardenValidationPassRate, jsNumLt]
  · norm_num [validatePatches, computeStatistics]

end Hardener
